import Mathlib

/-!
Shallow embedding of the payrue-staking-contracts staking rewarder
(src/python/staking_rewarder/service.py and
src/python/staking_rewarder/models/rewards.py), together with theorems
checking the natural-language specification against it.

Conventions of the embedding:
* Python `Decimal` values are modelled as exact rationals (`ℚ`); `int()`
  truncation toward zero is `pyInt`.
* The SQLAlchemy session is modelled as a pair of database snapshots:
  `durable` (what has been committed) and `session` (the view including
  rows added and flushed but not yet committed).  A flush changes only
  `session`; a commit copies `session` into `durable`.
* On-chain reads and writes are oracles supplied through the `Chain` and
  `DistEnv` structures; wall-clock time enters only through the boolean
  result of `has_month_passed`, passed in as a parameter.
-/

namespace PayrueStaking

/-- models/rewards.py lines 19-22: the complete enumeration of reward
states.  The source enum has exactly these three members; in particular
there is no member named confirmed. -/
inductive RewardState where
  | sent
  | sending
  | unsent
deriving DecidableEq, Repr

/-- The Reward dataclass, service.py lines 44-49. -/
structure Reward where
  user_address : String
  percentage : ℚ
  state : RewardState
  amount_wei : ℤ := 0
deriving DecidableEq, Repr

/-- A row of the distribution_round table, models/rewards.py lines 43-50. -/
structure DistributionRound where
  id : ℕ
  year : ℤ
  month : ℤ
deriving DecidableEq, Repr

/-- The ORM-mapped columns of the reward_distribution table,
models/rewards.py lines 25-40.  Note that the mapping declares no tx_hash
column. -/
structure RewardRow where
  id : ℕ
  user_address : String
  percentage : ℚ
  amount_wei : ℤ
  state : RewardState
  distribution_round_id : Option ℕ
deriving DecidableEq, Repr

/-- A durable reward_distribution row.  Besides the ORM-mapped columns it
carries the tx_hash column added by migration 6b396a3a6334; since the ORM
model maps no such column, flushes and commits never write it. -/
structure DurableReward where
  row : RewardRow
  tx_hash_col : Option String
deriving DecidableEq, Repr

/-- One database snapshot: the two tables plus the key_value_pair rows used
by the scanner (keys stakers_last_scanned_block_number and
staker_addresses). -/
structure Db where
  rounds : List DistributionRound
  rewards : List DurableReward
  kv_last_scanned : Option ℕ
  kv_staker_addresses : Option (List String)
deriving DecidableEq, Repr

/-- Read-only view of the ledger used by the rewarder: the contract calls
totalAmountStaked and staked at a given block, the Staked event log over a
block range, and the block closest to the final instant of a month
(get_closest_block, keyed here by year and month). -/
structure Chain where
  totalAmountStaked : ℕ → ℕ
  staked : String → ℕ → ℕ
  stakedEventUsers : ℕ → ℕ → List String
  closestBlockNumber : ℤ → ℤ → ℕ

/-- The mutable pieces of StakingRewarder relevant to the claims: the two
database views, the in-memory last_scanned_block_number field (service.py
lines 79-81), and counters handing out primary keys at flush time. -/
structure RewarderState where
  durable : Db
  session : Db
  last_scanned_block_number : ℕ
  nextRoundId : ℕ
  nextRewardId : ℕ
deriving DecidableEq, Repr

/-- Python int() on a Decimal truncates toward zero: the floor for
non-negative arguments, the ceiling for negative ones. -/
def pyInt (q : ℚ) : ℤ := if 0 ≤ q then q.floor else q.ceil

/-- service.py line 77: self.min_reward_amount = 0. -/
def min_reward_amount : ℤ := 0

/-- service.py line 258: web3.to_wei(1_000_000, "ether"). -/
def monthly_revenue : ℤ := 10 ^ 24

/-- service.py line 259: int(monthly_revenue * Decimal("0.25")). -/
def total_reward_to_distribute : ℤ := pyInt ((monthly_revenue : ℚ) * (25 / 100))

/-- service.py lines 98-130 (get_rewards_at_block).  Each percentage is
Decimal(str(staked)) / total_amount_staked; Decimal division is modelled
as exact rational division.  The claims use it only with a positive
divisor, where the Python call does not raise. -/
def get_rewards_at_block (chain : Chain) (user_addresses : List String)
    (block_number : ℕ) : List Reward :=
  if user_addresses = [] then []
  else
    let total := chain.totalAmountStaked block_number
    user_addresses.map fun a =>
      { user_address := a
        percentage := (chain.staked a block_number : ℚ) / (total : ℚ)
        state := RewardState.unsent }

/-- service.py lines 132-143: the users of the Staked events in the block
range, as a set. -/
def get_staker_addresses_from_events (chain : Chain)
    (start_block_number end_block_number : ℕ) : List String :=
  (chain.stakedEventUsers start_block_number end_block_number).eraseDups

/-- The year and month of datetime(year, month, 1) + relativedelta(months=1):
the first instant of the following calendar month. -/
def first_of_next_month (year month : ℤ) : ℤ × ℤ :=
  if month = 12 then (year + 1, 1) else (year, month + 1)

/-- The year and month of get_last_day_of_month(year, month) (service.py
lines 145-151): subtracting one microsecond from the first instant of the
next month lands in the final microsecond of the given month. -/
def last_day_of_month_ym (year month : ℤ) : ℤ × ℤ :=
  let n := first_of_next_month year month
  if n.2 = 1 then (n.1 - 1, 12) else (n.1, n.2 - 1)

/-- service.py lines 164-172: read the stakers_last_scanned_block_number
checkpoint and, when a row is present, overwrite the in-memory field with
its value. -/
def load_checkpoint (st : RewarderState) : RewarderState :=
  match st.session.kv_last_scanned with
  | some v => { st with last_scanned_block_number := v }
  | none => st

/-- Result of get_stakers: the returned address list, the rewarder state
afterwards, and whether an event query was issued. -/
structure ScanResult where
  value : List String
  state : RewarderState
  queried : Bool
deriving DecidableEq, Repr

/-- service.py lines 158-202 (get_stakers).  Below the checkpoint the
cached set (or an empty list when the cache row is absent) is returned
with no event query and no write.  Otherwise the scanner queries the event
log over (checkpoint, end_block], replaces the cached set and checkpoint
in the session, and flushes; in the source the update branch and the
insert branch leave the key-value view in the same state, so they are
collapsed here. -/
def get_stakers (chain : Chain) (st0 : RewarderState) (end_block_number : ℕ) :
    ScanResult :=
  let st := load_checkpoint st0
  if end_block_number < st.last_scanned_block_number then
    { value := st.session.kv_staker_addresses.getD []
      state := st
      queried := false }
  else
    let new_stakers := get_staker_addresses_from_events chain
      (st.last_scanned_block_number + 1) end_block_number
    let st1 := { st with last_scanned_block_number := end_block_number }
    let sess := { st1.session with
      kv_staker_addresses := some new_stakers
      kv_last_scanned := some st1.last_scanned_block_number }
    { value := new_stakers
      state := { st1 with session := sess }
      queried := true }

/-- service.py lines 84-96: the first distribution_round row matching the
year and month, searched in the session view. -/
def get_distribution_round (db : Db) (year month : ℤ) :
    Option DistributionRound :=
  db.rounds.find? fun r => decide (r.year = year ∧ r.month = month)

/-- The DistributionRound created by figure_out_rewards_for_month, with the
primary key the flush would assign. -/
def new_round (st : RewarderState) (year month : ℤ) : DistributionRound :=
  { id := st.nextRoundId, year := year, month := month }

/-- service.py lines 231-236: add the new round to the session and flush. -/
def round_inserted (st : RewarderState) (year month : ℤ) : RewarderState :=
  { st with
    session := { st.session with
      rounds := st.session.rounds ++ [new_round st year month] }
    nextRoundId := st.nextRoundId + 1 }

/-- service.py line 261: reward.amount_wei =
int(total_reward_to_distribute * reward.percentage), applied to every
reward object of the computed list. -/
def set_amounts (pool : ℤ) (rewards : List Reward) : List Reward :=
  rewards.map fun r => { r with amount_wei := pyInt ((pool : ℚ) * r.percentage) }

/-- service.py lines 262-263: a reward is persisted unless its amount_wei
is below min_reward_amount. -/
def kept_rewards (min_amount : ℤ) (rewards : List Reward) : List Reward :=
  rewards.filter fun r => decide (min_amount ≤ r.amount_wei)

/-- service.py lines 265-272: one reward_distribution row per kept reward,
in state unsent, owned by the round, with flush-assigned primary keys. -/
def rows_of_rewards : List Reward → ℕ → ℕ → List RewardRow
  | [], _, _ => []
  | r :: rest, round_id, next_id =>
    { id := next_id
      user_address := r.user_address
      percentage := r.percentage
      amount_wei := r.amount_wei
      state := RewardState.unsent
      distribution_round_id := some round_id } :: rows_of_rewards rest round_id (next_id + 1)

/-- Result of figure_out_rewards_for_month: the returned value (None or the
reward list) and the rewarder state afterwards. -/
structure FigureResult where
  result : Option (List Reward)
  state : RewarderState
deriving DecidableEq, Repr

/-- service.py lines 204-281 (figure_out_rewards_for_month).  When the
month has not passed, or a round already exists for the year and month of
the last day of the month, nothing happens and None is returned.
Otherwise the round is added and flushed, the scanner and calculator run,
and only when the computed reward list is non-empty are the reward rows
added and the transaction committed; on the empty path the function
returns with the round flushed but not committed. -/
def figure_out_rewards_for_month (chain : Chain) (month_has_passed : Bool)
    (st : RewarderState) (year month : ℤ) : FigureResult :=
  match month_has_passed with
  | false => { result := none, state := st }
  | true =>
    let ldom := last_day_of_month_ym year month
    match get_distribution_round st.session ldom.1 ldom.2 with
    | some _ => { result := none, state := st }
    | none =>
      let rid := st.nextRoundId
      let st1 := round_inserted st year month
      let end_block_number := chain.closestBlockNumber year month
      let scan := get_stakers chain st1 end_block_number
      let st2 := scan.state
      let rewards0 := get_rewards_at_block chain scan.value st2.last_scanned_block_number
      if rewards0 = [] then { result := none, state := st2 }
      else
        let rewards := set_amounts total_reward_to_distribute rewards0
        let kept := kept_rewards min_reward_amount rewards
        let rows := rows_of_rewards kept rid st2.nextRewardId
        let sess := { st2.session with
          rewards := st2.session.rewards ++
            rows.map fun row => { row := row, tx_hash_col := none } }
        { result := some rewards
          state := { st2 with
            session := sess
            durable := sess
            nextRewardId := st2.nextRewardId + kept.length } }

/-- The reward ORM object held in memory during distribute_rewards: the
mapped row plus the plain Python attribute tx_hash assigned at service.py
line 349.  The class maps no tx_hash column, so the attribute lives only
on the object. -/
structure RewardObj where
  row : RewardRow
  tx_hash_attr : Option String
deriving DecidableEq, Repr

/-- External effects available to distribute_rewards: the starting account
nonce, transaction submission (none models a raised exception), and
receipt lookup by transaction hash. -/
structure DistEnv where
  start_nonce : ℕ
  submit : String → ℤ → ℕ → Option String
  receipt_status : String → ℕ

/-- Overwrite the state column of the row with the given primary key; each
with-begin block of the autocommit session commits at exit, so the change
is immediately durable. -/
def set_reward_state (db : Db) (id : ℕ) (s : RewardState) : Db :=
  { db with rewards := db.rewards.map fun r =>
      if r.row.id = id then { r with row := { r.row with state := s } } else r }

/-- Result of the per-record send loop. -/
structure SendResult where
  db : Db
  nonce : ℕ
  objs : List RewardObj
  transfers : List (String × ℤ × ℕ × String)
  error : Option String
deriving Repr

/-- service.py lines 328-349: for each record, commit state sending, submit
the transfer, and on success commit state sent; the transaction hash goes
only to the unmapped tx_hash attribute of the object, so the durable
tx_hash column stays untouched.  A failed submission stops the loop with
the current record left in sending. -/
def send_loop (env : DistEnv) : List DurableReward → Db → ℕ → SendResult
  | [], db, nonce =>
    { db := db, nonce := nonce, objs := [], transfers := [], error := none }
  | r :: rest, db, nonce =>
    let db1 := set_reward_state db r.row.id RewardState.sending
    match env.submit r.row.user_address r.row.amount_wei nonce with
    | none =>
      { db := db1, nonce := nonce, objs := [], transfers := []
        error := some "transact raised" }
    | some h =>
      let db2 := set_reward_state db1 r.row.id RewardState.sent
      let obj : RewardObj :=
        { row := { r.row with state := RewardState.sent }, tx_hash_attr := some h }
      let res := send_loop env rest db2 (nonce + 1)
      { res with
        objs := obj :: res.objs
        transfers := (r.row.user_address, r.row.amount_wei, nonce, h) :: res.transfers }

/-- service.py lines 351-360: for each object of this run, wait for the
receipt; status 0 raises Transaction failed; status 1 evaluates
RewardState.confirmed, an attribute the enum of models/rewards.py does not
define, so Python raises AttributeError before any state change. -/
def confirm_loop (env : DistEnv) : List RewardObj → Option String
  | [] => none
  | o :: rest =>
    match o.tx_hash_attr with
    | none => some "AttributeError: tx_hash"
    | some h =>
      if env.receipt_status h = 0 then some "Transaction failed"
      else if env.receipt_status h = 1 then
        some "AttributeError: type object RewardState has no attribute confirmed"
      else confirm_loop env rest

/-- Outcome of distribute_rewards: the database afterwards, the in-memory
objects of the run, the successfully submitted transfers (recipient,
amount, nonce, hash), whether the messenger was notified, and the raised
error if any. -/
structure DistOutcome where
  db : Db
  objs : List RewardObj
  transfers : List (String × ℤ × ℕ × String)
  alerted : Bool
  error : Option String
deriving Repr

/-- service.py lines 294-367 (distribute_rewards).  Any record in state
sending aborts the run before anything else happens; otherwise the unsent
records are driven through the send loop and then the confirmation loop,
with every raised exception preceded by a messenger notification. -/
def distribute_rewards (env : DistEnv) (db : Db) : DistOutcome :=
  match db.rewards.filter (fun r => decide (r.row.state = RewardState.sending)) with
  | _ :: _ =>
    { db := db, objs := [], transfers := [], alerted := true
      error := some "Sending rewards already in progress" }
  | [] =>
    let unsent := db.rewards.filter fun r => decide (r.row.state = RewardState.unsent)
    let s := send_loop env unsent db env.start_nonce
    match s.error with
    | some e =>
      { db := s.db, objs := s.objs, transfers := s.transfers
        alerted := true, error := some e }
    | none =>
      match confirm_loop env s.objs with
      | some e =>
        { db := s.db, objs := s.objs, transfers := s.transfers
          alerted := true, error := some e }
      | none =>
        { db := s.db, objs := s.objs, transfers := s.transfers
          alerted := false, error := none }

/-- An empty database. -/
def db_empty : Db :=
  { rounds := [], rewards := [], kv_last_scanned := none, kv_staker_addresses := none }

/-- A fresh rewarder over an empty database; the tests construct the
rewarder with last_scanned_block_number 0. -/
def st_empty : RewarderState :=
  { durable := db_empty, session := db_empty, last_scanned_block_number := 0
    nextRoundId := 1, nextRewardId := 1 }

/-- A ledger with no Staked events at all. -/
def chain_noEvents : Chain :=
  { totalAmountStaked := fun _ => 0, staked := fun _ _ => 0
    stakedEventUsers := fun _ _ => [], closestBlockNumber := fun _ _ => 10 }

/-- The ledger of the end-to-end example: A staked 10000 and B staked 70000
out of a total of 80000 by the snapshot block. -/
def chain_ab : Chain :=
  { totalAmountStaked := fun _ => 80000
    staked := fun a _ => if a = "A" then 10000 else if a = "B" then 70000 else 0
    stakedEventUsers := fun _ _ => ["A", "B"]
    closestBlockNumber := fun _ _ => 5 }

/-- A ledger where Z appears in the Staked event log but holds no stake at
the snapshot block. -/
def chain_z : Chain :=
  { totalAmountStaked := fun _ => 80000
    staked := fun a _ => if a = "A" then 80000 else 0
    stakedEventUsers := fun _ _ => ["A", "Z"]
    closestBlockNumber := fun _ _ => 5 }

/-- One unsent reward row. -/
def rr_unsent : DurableReward :=
  { row := { id := 1, user_address := "0xa", percentage := 1, amount_wei := 5
             state := RewardState.unsent, distribution_round_id := some 1 }
    tx_hash_col := none }

/-- One reward row stuck in state sending. -/
def rr_stuck : DurableReward :=
  { row := { id := 2, user_address := "0xb", percentage := 1, amount_wei := 7
             state := RewardState.sending, distribution_round_id := some 1 }
    tx_hash_col := none }

/-- A database holding a single unsent reward. -/
def db_one_unsent : Db :=
  { rounds := [{ id := 1, year := 2024, month := 1 }], rewards := [rr_unsent]
    kv_last_scanned := none, kv_staker_addresses := none }

/-- A database holding a single reward stuck in sending. -/
def db_one_stuck : Db :=
  { rounds := [{ id := 1, year := 2024, month := 1 }], rewards := [rr_stuck]
    kv_last_scanned := none, kv_staker_addresses := none }

/-- An environment where submission always succeeds and every receipt
reports success. -/
def env_ok : DistEnv :=
  { start_nonce := 7, submit := fun _ _ _ => some "0xh1"
    receipt_status := fun _ => 1 }

/-- A database whose scanner checkpoint is block 100 with one cached
staker. -/
def db_cached : Db :=
  { rounds := [], rewards := [], kv_last_scanned := some 100
    kv_staker_addresses := some ["0xa"] }

/-- A rewarder whose session and durable store both hold the cached
checkpoint. -/
def st_cached : RewarderState :=
  { durable := db_cached, session := db_cached, last_scanned_block_number := 0
    nextRoundId := 1, nextRewardId := 1 }

/-- A ledger on which the scanner's replace semantics drops a staker: A and
B each hold 50 of a total stake of 100, but only B staked inside the
scanned range (100, 200], so the Staked event query there returns B
alone. -/
def chain_drop : Chain :=
  { totalAmountStaked := fun _ => 100
    staked := fun a _ => if a = "A" then 50 else if a = "B" then 50 else 0
    stakedEventUsers := fun _ _ => ["B"]
    closestBlockNumber := fun _ _ => 200 }

/-- A database whose scanner checkpoint is block 100 with staker A cached
from an earlier scan. -/
def db_drop : Db :=
  { rounds := [], rewards := [], kv_last_scanned := some 100
    kv_staker_addresses := some ["A"] }

/-- A rewarder over that checkpoint, before any round exists. -/
def st_drop : RewarderState :=
  { durable := db_drop, session := db_drop, last_scanned_block_number := 0
    nextRoundId := 1, nextRewardId := 1 }

/-- For a valid calendar month, the final microsecond of the month lies in
the same year and month. -/
theorem last_day_of_month_ym_eq (year month : ℤ) (h1 : 1 ≤ month)
    (h2 : month ≤ 12) : last_day_of_month_ym year month = (year, month) := by
  unfold last_day_of_month_ym first_of_next_month
  by_cases h : month = 12
  · subst h
    simp [Prod.ext_iff]
  · have h3 : ¬ (month + 1 = 1) := by omega
    simp [h, h3]

/-- get_stakers changes only the checkpoint rows of the session and the
in-memory block pointer: rounds, reward rows, the durable store and the id
counters are untouched. -/
theorem get_stakers_frame (chain : Chain) (st : RewarderState) (b : ℕ) :
    (get_stakers chain st b).state.session.rounds = st.session.rounds ∧
    (get_stakers chain st b).state.session.rewards = st.session.rewards ∧
    (get_stakers chain st b).state.durable = st.durable ∧
    (get_stakers chain st b).state.nextRoundId = st.nextRoundId ∧
    (get_stakers chain st b).state.nextRewardId = st.nextRewardId := by
  unfold get_stakers load_checkpoint
  cases st.session.kv_last_scanned <;> dsimp <;> split <;> simp

/-- Reduction of figure_out_rewards_for_month when a round for the looked-up
year and month already exists. -/
theorem figure_out_round_exists (chain : Chain) (st : RewarderState)
    (year month : ℤ) (r : DistributionRound)
    (hr : get_distribution_round st.session (last_day_of_month_ym year month).1
      (last_day_of_month_ym year month).2 = some r) :
    figure_out_rewards_for_month chain true st year month =
      { result := none, state := st } := by
  simp only [figure_out_rewards_for_month]
  rw [hr]

/-- Reduction of figure_out_rewards_for_month on the path where the scanner
yields no stakers: the call returns None in the post-scan state, with no
commit. -/
theorem figure_out_no_stakers_eq (chain : Chain) (st : RewarderState)
    (year month : ℤ)
    (hnr : get_distribution_round st.session (last_day_of_month_ym year month).1
      (last_day_of_month_ym year month).2 = none)
    (hscan : (get_stakers chain (round_inserted st year month)
      (chain.closestBlockNumber year month)).value = []) :
    figure_out_rewards_for_month chain true st year month =
      { result := none
        state := (get_stakers chain (round_inserted st year month)
          (chain.closestBlockNumber year month)).state } := by
  simp only [figure_out_rewards_for_month]
  rw [hnr]
  simp [hscan, get_rewards_at_block]

/-- The session rounds table after a round-creating call consists of the old
rounds with the new round appended, whether or not rewards were committed. -/
theorem figure_out_rounds_after (chain : Chain) (st : RewarderState)
    (year month : ℤ)
    (hnr : get_distribution_round st.session (last_day_of_month_ym year month).1
      (last_day_of_month_ym year month).2 = none) :
    (figure_out_rewards_for_month chain true st year month).state.session.rounds =
      st.session.rounds ++ [new_round st year month] := by
  have hfr := (get_stakers_frame chain (round_inserted st year month)
    (chain.closestBlockNumber year month)).1
  simp only [figure_out_rewards_for_month]
  rw [hnr]
  dsimp only
  split
  · exact hfr
  · exact hfr

attribute [local semireducible] Rat.add Rat.mul Rat.sub Rat.inv

/-- pyInt agrees with the floor on non-negative rationals. -/
theorem pyInt_of_nonneg (q : ℚ) (h : 0 ≤ q) : pyInt q = ⌊q⌋ := by
  unfold pyInt
  rw [if_pos h, Rat.floor_def', ← Rat.floor_def]

/-- The reward pool of a round evaluates to a quarter of the monthly
revenue. -/
theorem total_reward_eq : total_reward_to_distribute = 25 * 10 ^ 22 := by decide

/-- The reward pool of a round is non-negative. -/
theorem total_reward_nonneg : 0 ≤ total_reward_to_distribute := by
  rw [total_reward_eq]
  norm_num

/-- The sum of the floors of a list of rationals is at most the sum of the
list. -/
theorem sum_floor_le_sum (l : List ℚ) :
    (((l.map fun q => ⌊q⌋).sum : ℤ) : ℚ) ≤ l.sum := by
  induction l with
  | nil => simp
  | cons a t ih =>
    simp only [List.map_cons, List.sum_cons]
    push_cast
    push_cast at ih
    exact add_le_add (Int.floor_le a) ih

/-- Dividing each summand by a common denominator divides the sum. -/
theorem sum_map_div {α : Type} (l : List α) (f : α → ℚ) (t : ℚ) :
    (l.map fun a => f a / t).sum = (l.map f).sum / t := by
  induction l with
  | nil => simp
  | cons a tl ih => simp [ih, add_div]

/-- Casting a sum of naturals into the rationals summand by summand. -/
theorem sum_map_natCast {α : Type} (l : List α) (f : α → ℕ) :
    (l.map fun a => ((f a : ℕ) : ℚ)).sum = (((l.map f).sum : ℕ) : ℚ) := by
  induction l with
  | nil => simp
  | cons a tl ih => simp [ih]

/-- When every computed amount clears the minimum, the persistence filter
keeps the whole list. -/
theorem kept_all_of_nonneg (min_amount : ℤ) (l : List Reward)
    (h : ∀ r ∈ l, min_amount ≤ r.amount_wei) : kept_rewards min_amount l = l := by
  unfold kept_rewards
  refine List.filter_eq_self.mpr ?_
  intro r hr
  simpa using h r hr

/-- On a non-empty address list the calculator returns exactly one reward
per address, with the proportional percentage. -/
theorem get_rewards_at_block_eq_map (chain : Chain) (addrs : List String)
    (b : ℕ) (h : addrs ≠ []) :
    get_rewards_at_block chain addrs b = addrs.map fun a =>
      { user_address := a
        percentage := (chain.staked a b : ℚ) / (chain.totalAmountStaked b : ℚ)
        state := RewardState.unsent } := by
  unfold get_rewards_at_block
  rw [if_neg h]

/-- The calculator returns a non-empty list on a non-empty address list. -/
theorem get_rewards_at_block_ne_nil (chain : Chain) (addrs : List String)
    (b : ℕ) (h : addrs ≠ []) : get_rewards_at_block chain addrs b ≠ [] := by
  rw [get_rewards_at_block_eq_map chain addrs b h]
  simpa using h

/-- Every computed percentage is non-negative. -/
theorem get_rewards_at_block_pct_nonneg (chain : Chain) (addrs : List String)
    (b : ℕ) : ∀ r ∈ get_rewards_at_block chain addrs b, 0 ≤ r.percentage := by
  intro r hr
  unfold get_rewards_at_block at hr
  split at hr
  · cases hr
  · obtain ⟨a, ha, rfl⟩ := List.mem_map.mp hr
    exact div_nonneg (Nat.cast_nonneg _) (Nat.cast_nonneg _)

/-- Setting amounts keeps the percentages of the reward list. -/
theorem set_amounts_percentages (pool : ℤ) (l : List Reward) :
    (set_amounts pool l).map (fun r => r.percentage) = l.map fun r => r.percentage := by
  unfold set_amounts
  rw [List.map_map]
  rfl

/-- With a non-negative pool and non-negative percentages every assigned
amount is non-negative. -/
theorem set_amounts_nonneg (pool : ℤ) (l : List Reward) (hpool : 0 ≤ pool)
    (hl : ∀ r ∈ l, 0 ≤ r.percentage) :
    ∀ r ∈ set_amounts pool l, 0 ≤ r.amount_wei := by
  intro r hr
  obtain ⟨r0, h0, rfl⟩ := List.mem_map.mp hr
  have hp : (0 : ℚ) ≤ (pool : ℚ) * r0.percentage :=
    mul_nonneg (by exact_mod_cast hpool) (hl r0 h0)
  simpa [pyInt_of_nonneg _ hp] using Int.floor_nonneg.mpr hp

/-- The created rows carry the percentages of the kept rewards. -/
theorem rows_of_rewards_percentages (l : List Reward) (rid : ℕ) :
    ∀ n, (rows_of_rewards l rid n).map (fun row => row.percentage) =
      l.map fun r => r.percentage := by
  induction l with
  | nil => intro n; rfl
  | cons r t ih => intro n; simp [rows_of_rewards, ih]

/-- Every created row belongs to the new round. -/
theorem rows_of_rewards_round_id (l : List Reward) (rid : ℕ) :
    ∀ n, ∀ row ∈ rows_of_rewards l rid n,
      row.distribution_round_id = some rid := by
  induction l with
  | nil => intro n row h; cases h
  | cons r t ih =>
    intro n row h
    cases h with
    | head => rfl
    | tail _ h2 => exact ih (n + 1) row h2

/-- Every created row starts in state unsent. -/
theorem rows_of_rewards_state (l : List Reward) (rid : ℕ) :
    ∀ n, ∀ row ∈ rows_of_rewards l rid n, row.state = RewardState.unsent := by
  induction l with
  | nil => intro n row h; cases h
  | cons r t ih =>
    intro n row h
    cases h with
    | head => rfl
    | tail _ h2 => exact ih (n + 1) row h2

/-- Every kept reward yields a created row with the same address,
percentage and amount. -/
theorem rows_of_rewards_mem (l : List Reward) (rid : ℕ) :
    ∀ n r, r ∈ l → ∃ row ∈ rows_of_rewards l rid n,
      row.user_address = r.user_address ∧ row.percentage = r.percentage ∧
      row.amount_wei = r.amount_wei := by
  induction l with
  | nil => intro n r h; cases h
  | cons a t ih =>
    intro n r h
    cases h with
    | head => exact ⟨_, List.mem_cons_self _ _, rfl, rfl, rfl⟩
    | tail _ h2 =>
      obtain ⟨row, hrow, hp⟩ := ih (n + 1) r h2
      exact ⟨row, List.mem_cons_of_mem _ hrow, hp⟩

/-- Reduction of figure_out_rewards_for_month on the success path: the
session and the durable store both end with the old reward rows followed by
the newly created rows of the round. -/
theorem figure_out_success_parts (chain : Chain) (st : RewarderState)
    (year month : ℤ)
    (hnr : get_distribution_round st.session (last_day_of_month_ym year month).1
      (last_day_of_month_ym year month).2 = none)
    (hne : (get_stakers chain (round_inserted st year month)
      (chain.closestBlockNumber year month)).value ≠ []) :
    (figure_out_rewards_for_month chain true st year month).state.session.rewards =
      st.session.rewards ++
        (rows_of_rewards (kept_rewards min_reward_amount (set_amounts
            total_reward_to_distribute (get_rewards_at_block chain
              (get_stakers chain (round_inserted st year month)
                (chain.closestBlockNumber year month)).value
              (get_stakers chain (round_inserted st year month)
                (chain.closestBlockNumber year month)).state.last_scanned_block_number)))
          st.nextRoundId
          (get_stakers chain (round_inserted st year month)
            (chain.closestBlockNumber year month)).state.nextRewardId).map
          (fun row => { row := row, tx_hash_col := none }) ∧
    (figure_out_rewards_for_month chain true st year month).state.durable.rewards =
      st.session.rewards ++
        (rows_of_rewards (kept_rewards min_reward_amount (set_amounts
            total_reward_to_distribute (get_rewards_at_block chain
              (get_stakers chain (round_inserted st year month)
                (chain.closestBlockNumber year month)).value
              (get_stakers chain (round_inserted st year month)
                (chain.closestBlockNumber year month)).state.last_scanned_block_number)))
          st.nextRoundId
          (get_stakers chain (round_inserted st year month)
            (chain.closestBlockNumber year month)).state.nextRewardId).map
          (fun row => { row := row, tx_hash_col := none }) := by
  have hfr := get_stakers_frame chain (round_inserted st year month)
    (chain.closestBlockNumber year month)
  simp only [figure_out_rewards_for_month]
  rw [hnr]
  dsimp only
  rw [if_neg (get_rewards_at_block_ne_nil chain _ _ hne)]
  dsimp only
  rw [hfr.2.1]
  exact ⟨rfl, rfl⟩

/-- With an always-successful submission oracle the send loop errors
nowhere and submits exactly one transfer per processed record, with the
recorded address and amount. -/
theorem send_loop_transfers_all (env : DistEnv)
    (hsub : ∀ a m n, (env.submit a m n).isSome = true) :
    ∀ (l : List DurableReward) (db : Db) (nonce : ℕ),
      (send_loop env l db nonce).error = none ∧
      (send_loop env l db nonce).transfers.map (fun t => (t.1, t.2.1)) =
        l.map fun r => (r.row.user_address, r.row.amount_wei) := by
  intro l
  induction l with
  | nil => intro db nonce; exact ⟨rfl, rfl⟩
  | cons r rest ih =>
    intro db nonce
    have h := hsub r.row.user_address r.row.amount_wei nonce
    unfold send_loop
    cases hs : env.submit r.row.user_address r.row.amount_wei nonce with
    | none => rw [hs] at h; cases h
    | some hx =>
      dsimp only
      refine ⟨(ih _ _).1, ?_⟩
      simp [(ih _ _).2]

/-- When no record is in state sending, the transfers of the run are the
transfers of the send loop over the unsent records. -/
theorem distribute_rewards_transfers_eq (env : DistEnv) (db : Db)
    (hnosend : db.rewards.filter
      (fun r => decide (r.row.state = RewardState.sending)) = []) :
    (distribute_rewards env db).transfers =
      (send_loop env
        (db.rewards.filter fun r => decide (r.row.state = RewardState.unsent))
        db env.start_nonce).transfers := by
  unfold distribute_rewards
  rw [hnosend]
  dsimp only
  cases hse : (send_loop env
      (db.rewards.filter fun r => decide (r.row.state = RewardState.unsent))
      db env.start_nonce).error with
  | some e => rfl
  | none =>
    cases confirm_loop env (send_loop env
        (db.rewards.filter fun r => decide (r.row.state = RewardState.unsent))
        db env.start_nonce).objs <;> rfl

/-- C1: the record state machine of the spec ends in a `confirmed` state,
but the enum of models/rewards.py has exactly the three members sent,
sending and unsent, so when distribute_rewards reaches a sent record whose
receipt reports success (status 1) the attribute access
RewardState.confirmed at service.py line 360 raises AttributeError: the
run errors out and the record stays in state sent; `confirmed` is not a
reachable (or even representable) state. -/
theorem distribute_rewards_confirm_step_raises :
    (∀ s : RewardState, s = RewardState.sent ∨ s = RewardState.sending ∨
      s = RewardState.unsent) ∧
    (distribute_rewards env_ok db_one_unsent).error =
      some "AttributeError: type object RewardState has no attribute confirmed" ∧
    ((distribute_rewards env_ok db_one_unsent).db.rewards.map fun r => r.row.state) =
      [RewardState.sent] :=
  ⟨fun s => by cases s <;> simp, by decide, by decide⟩

/-- C2: after a successful submission the record is committed in state
sent, but the transaction hash is assigned only to a plain Python
attribute (RewardDistribution maps no tx_hash column), so the durable
tx_hash column — added by migration 6b396a3a6334 — is never written: the
in-memory object carries the hash while the durable row keeps none. -/
theorem distribute_rewards_tx_hash_not_persisted :
    ((distribute_rewards env_ok db_one_unsent).objs.map fun o => o.tx_hash_attr) =
      [some "0xh1"] ∧
    ((distribute_rewards env_ok db_one_unsent).db.rewards.map
        fun r => (r.row.state, r.tx_hash_col)) =
      [(RewardState.sent, (none : Option String))] :=
  ⟨by decide, by decide⟩

/-- C5: when any reward record is in state sending at the start of
distribute_rewards, the run notifies the messenger and raises, leaving the
database untouched and submitting no transfer. -/
theorem distribute_rewards_aborts_when_sending (env : DistEnv) (db : Db)
    (h : ∃ r ∈ db.rewards, r.row.state = RewardState.sending) :
    (distribute_rewards env db).db = db ∧
    (distribute_rewards env db).transfers = [] ∧
    (distribute_rewards env db).alerted = true ∧
    (distribute_rewards env db).error = some "Sending rewards already in progress" := by
  obtain ⟨r, hr, hs⟩ := h
  have hmem : r ∈ db.rewards.filter
      (fun x => decide (x.row.state = RewardState.sending)) :=
    List.mem_filter.mpr ⟨hr, by simp [hs]⟩
  unfold distribute_rewards
  cases hf : db.rewards.filter (fun x => decide (x.row.state = RewardState.sending)) with
  | nil => rw [hf] at hmem; cases hmem
  | cons a l => exact ⟨rfl, rfl, rfl, rfl⟩

/-- Witness for the C5 theorem at a concrete stuck database. -/
theorem distribute_rewards_aborts_when_sending_witness :
    (distribute_rewards env_ok db_one_stuck).db = db_one_stuck ∧
    (distribute_rewards env_ok db_one_stuck).transfers = [] ∧
    (distribute_rewards env_ok db_one_stuck).alerted = true ∧
    (distribute_rewards env_ok db_one_stuck).error =
      some "Sending rewards already in progress" :=
  distribute_rewards_aborts_when_sending env_ok db_one_stuck
    ⟨rr_stuck, by decide, by decide⟩

/-- C9: when the requested block is strictly below the stored checkpoint,
get_stakers returns the cached staker set (an empty list when the cache
row is absent), issues no event query, and changes neither the session nor
the durable store. -/
theorem get_stakers_cached_no_query_no_write (chain : Chain)
    (st : RewarderState) (b L : ℕ)
    (hL : st.session.kv_last_scanned = some L) (hb : b < L) :
    (get_stakers chain st b).value = st.session.kv_staker_addresses.getD [] ∧
    (get_stakers chain st b).queried = false ∧
    (get_stakers chain st b).state.session = st.session ∧
    (get_stakers chain st b).state.durable = st.durable := by
  unfold get_stakers load_checkpoint
  rw [hL]
  simp [hb]

/-- Witness for the C9 theorem at a concrete cached state. -/
theorem get_stakers_cached_no_query_no_write_witness :
    (get_stakers chain_ab st_cached 5).value =
      st_cached.session.kv_staker_addresses.getD [] ∧
    (get_stakers chain_ab st_cached 5).queried = false ∧
    (get_stakers chain_ab st_cached 5).state.session = st_cached.session ∧
    (get_stakers chain_ab st_cached 5).state.durable = st_cached.durable :=
  get_stakers_cached_no_query_no_write chain_ab st_cached 5 100 rfl (by decide)

/-- C3 counterexample: after the month has passed, with no existing round
and a ledger yielding no stakers, figure_out_rewards_for_month returns
None and creates the round in the session, but the round is never
committed: the durable store still has no rounds, so the period is not
durably marked processed. -/
theorem figure_out_empty_round_not_durable :
    (figure_out_rewards_for_month chain_noEvents true st_empty 2024 1).result = none ∧
    new_round st_empty 2024 1 ∈
      (figure_out_rewards_for_month chain_noEvents true st_empty 2024 1).state.session.rounds ∧
    (figure_out_rewards_for_month chain_noEvents true st_empty 2024 1).state.durable.rounds = [] :=
  ⟨by decide, by decide, by decide⟩

/-- C3 (amended): when the month has passed, no round exists for the year
and month of its last day, and the scanner yields no stakers, the call
returns None with the new DistributionRound added and flushed to the
session — so later calls in the same session treat the period as processed
— but nothing is committed: the durable store is unchanged. -/
theorem figure_out_no_rewards_round_flushed_not_committed (chain : Chain)
    (st : RewarderState) (year month : ℤ)
    (hnr : get_distribution_round st.session (last_day_of_month_ym year month).1
      (last_day_of_month_ym year month).2 = none)
    (hscan : (get_stakers chain (round_inserted st year month)
      (chain.closestBlockNumber year month)).value = []) :
    (figure_out_rewards_for_month chain true st year month).result = none ∧
    new_round st year month ∈
      (figure_out_rewards_for_month chain true st year month).state.session.rounds ∧
    (figure_out_rewards_for_month chain true st year month).state.durable = st.durable := by
  have heq := figure_out_no_stakers_eq chain st year month hnr hscan
  have hfr := get_stakers_frame chain (round_inserted st year month)
    (chain.closestBlockNumber year month)
  refine ⟨by rw [heq], ?_, ?_⟩
  · rw [heq]
    dsimp only
    rw [hfr.1]
    simp [round_inserted]
  · rw [heq]
    dsimp only
    rw [hfr.2.2.1]
    rfl

/-- Witness for the amended C3 theorem at a concrete empty state. -/
theorem figure_out_no_rewards_round_flushed_not_committed_witness :
    (figure_out_rewards_for_month chain_noEvents true st_empty 2024 1).result = none ∧
    new_round st_empty 2024 1 ∈
      (figure_out_rewards_for_month chain_noEvents true st_empty 2024 1).state.session.rounds ∧
    (figure_out_rewards_for_month chain_noEvents true st_empty 2024 1).state.durable =
      st_empty.durable :=
  figure_out_no_rewards_round_flushed_not_committed chain_noEvents st_empty 2024 1
    (by decide) (by decide)

/-- C4: figure_out_rewards_for_month is idempotent per period.  If no round
exists for (year, month), running it twice with the month passed leaves
the second call returning None with the state unchanged, and exactly one
DistributionRound for (year, month) exists in the session afterwards. -/
theorem figure_out_idempotent_per_month (chain : Chain) (st : RewarderState)
    (year month : ℤ) (h1 : 1 ≤ month) (h2 : month ≤ 12)
    (hnr : get_distribution_round st.session year month = none) :
    (figure_out_rewards_for_month chain true
        (figure_out_rewards_for_month chain true st year month).state year month).result =
      none ∧
    (figure_out_rewards_for_month chain true
        (figure_out_rewards_for_month chain true st year month).state year month).state =
      (figure_out_rewards_for_month chain true st year month).state ∧
    ((figure_out_rewards_for_month chain true st year month).state.session.rounds.filter
        fun r => decide (r.year = year ∧ r.month = month)).length = 1 := by
  have hld := last_day_of_month_ym_eq year month h1 h2
  have hnr' : get_distribution_round st.session (last_day_of_month_ym year month).1
      (last_day_of_month_ym year month).2 = none := by rw [hld]; exact hnr
  have rounds1 := figure_out_rounds_after chain st year month hnr'
  have hold : st.session.rounds.find?
      (fun r => decide (r.year = year ∧ r.month = month)) = none := hnr
  have lookup2 : get_distribution_round
      (figure_out_rewards_for_month chain true st year month).state.session year month =
      some (new_round st year month) := by
    unfold get_distribution_round
    rw [rounds1, List.find?_append, hold]
    simp [new_round]
  have lookup2h : get_distribution_round
      (figure_out_rewards_for_month chain true st year month).state.session
      (last_day_of_month_ym year month).1 (last_day_of_month_ym year month).2 =
      some (new_round st year month) := by rw [hld]; exact lookup2
  have second := figure_out_round_exists chain
    (figure_out_rewards_for_month chain true st year month).state year month
    (new_round st year month) lookup2h
  refine ⟨by rw [second], by rw [second], ?_⟩
  rw [rounds1, List.filter_append]
  have hnil : st.session.rounds.filter
      (fun r => decide (r.year = year ∧ r.month = month)) = [] := by
    rw [List.filter_eq_nil_iff]
    intro a ha
    have := List.find?_eq_none.mp hold a ha
    simpa using this
  rw [hnil]
  simp [new_round]

/-- Witness for the C4 theorem at a concrete empty state. -/
theorem figure_out_idempotent_per_month_witness :
    (figure_out_rewards_for_month chain_noEvents true
        (figure_out_rewards_for_month chain_noEvents true st_empty 2024 1).state
        2024 1).result = none ∧
    (figure_out_rewards_for_month chain_noEvents true
        (figure_out_rewards_for_month chain_noEvents true st_empty 2024 1).state
        2024 1).state =
      (figure_out_rewards_for_month chain_noEvents true st_empty 2024 1).state ∧
    ((figure_out_rewards_for_month chain_noEvents true st_empty 2024 1).state.session.rounds.filter
        fun r => decide (r.year = 2024 ∧ r.month = 1)).length = 1 :=
  figure_out_idempotent_per_month chain_noEvents st_empty 2024 1
    (by decide) (by decide) (by decide)

/-- C7: on a non-empty address list with positive total stake the
calculator returns one reward per address with percentage equal to the
exact rational stake(address) / totalStake; in the end-to-end example with
stakes 10000 and 70000 out of 80000 the percentages are 0.125 and 0.875. -/
theorem get_rewards_at_block_proportional (chain : Chain) (addrs : List String)
    (b : ℕ) (hne : addrs ≠ []) (_hpos : 0 < chain.totalAmountStaked b) :
    get_rewards_at_block chain addrs b = (addrs.map fun a =>
      { user_address := a
        percentage := (chain.staked a b : ℚ) / (chain.totalAmountStaked b : ℚ)
        state := RewardState.unsent }) ∧
    (get_rewards_at_block chain_ab ["A", "B"] 5).map (fun r => r.percentage) =
      [(125 : ℚ) / 1000, (875 : ℚ) / 1000] :=
  ⟨get_rewards_at_block_eq_map chain addrs b hne, by decide⟩

/-- Witness for the C7 theorem at the end-to-end example ledger. -/
theorem get_rewards_at_block_proportional_witness :
    get_rewards_at_block chain_ab ["A", "B"] 5 =
      ((["A", "B"] : List String).map fun a =>
        { user_address := a
          percentage := (chain_ab.staked a 5 : ℚ) / (chain_ab.totalAmountStaked 5 : ℚ)
          state := RewardState.unsent }) ∧
    (get_rewards_at_block chain_ab ["A", "B"] 5).map (fun r => r.percentage) =
      [(125 : ℚ) / 1000, (875 : ℚ) / 1000] :=
  get_rewards_at_block_proportional chain_ab ["A", "B"] 5 (by decide) (by decide)

/-- C8: over the kept rewards, every assigned amount equals the floor of
rewardPool * percentage, and their sum never exceeds the pool. -/
theorem kept_amounts_floor_and_sum_le (pool : ℤ) (rewards : List Reward)
    (hpool : 0 ≤ pool) (hpct : ∀ r ∈ rewards, 0 ≤ r.percentage)
    (hsum : (rewards.map fun r => r.percentage).sum ≤ 1) :
    ((kept_rewards min_reward_amount (set_amounts pool rewards)).map
        fun r => r.amount_wei) =
      ((kept_rewards min_reward_amount (set_amounts pool rewards)).map
        fun r => ⌊(pool : ℚ) * r.percentage⌋) ∧
    ((kept_rewards min_reward_amount (set_amounts pool rewards)).map
        fun r => r.amount_wei).sum ≤ pool := by
  have hnn := set_amounts_nonneg pool rewards hpool hpct
  have hkeep : kept_rewards min_reward_amount (set_amounts pool rewards) =
      set_amounts pool rewards :=
    kept_all_of_nonneg _ _ fun r hr => hnn r hr
  have hmapeq : (set_amounts pool rewards).map (fun r => r.amount_wei) =
      (rewards.map fun r => (pool : ℚ) * r.percentage).map fun q => ⌊q⌋ := by
    unfold set_amounts
    rw [List.map_map, List.map_map]
    refine List.map_congr_left ?_
    intro r hr
    have hp : (0 : ℚ) ≤ (pool : ℚ) * r.percentage :=
      mul_nonneg (by exact_mod_cast hpool) (hpct r hr)
    exact pyInt_of_nonneg _ hp
  constructor
  · rw [hkeep, hmapeq]
    unfold set_amounts
    rw [List.map_map, List.map_map]
    rfl
  · rw [hkeep, hmapeq]
    have h1 := sum_floor_le_sum (rewards.map fun r => (pool : ℚ) * r.percentage)
    have h2 : (rewards.map fun r => (pool : ℚ) * r.percentage).sum =
        (pool : ℚ) * (rewards.map fun r => r.percentage).sum := by
      have := List.sum_map_mul_left rewards (fun r => r.percentage) ((pool : ℚ))
      simpa using this
    have h3 : (pool : ℚ) * (rewards.map fun r => r.percentage).sum ≤ (pool : ℚ) :=
      mul_le_of_le_one_right (by exact_mod_cast hpool) hsum
    have h4 : ((((rewards.map fun r => (pool : ℚ) * r.percentage).map
        fun q => ⌊q⌋).sum : ℤ) : ℚ) ≤ (pool : ℚ) := by
      calc (( ((rewards.map fun r => (pool : ℚ) * r.percentage).map
            fun q => ⌊q⌋).sum : ℤ) : ℚ)
          ≤ (rewards.map fun r => (pool : ℚ) * r.percentage).sum := h1
        _ = (pool : ℚ) * (rewards.map fun r => r.percentage).sum := h2
        _ ≤ (pool : ℚ) := h3
    exact_mod_cast h4

/-- Witness for the C8 theorem: with a pool of 250000 and percentages 1/8
and 7/8 the amounts are the floors 31250 and 218750, summing to at most
the pool. -/
theorem kept_amounts_floor_and_sum_le_witness :
    ((kept_rewards min_reward_amount (set_amounts 250000
        [{ user_address := "A", percentage := 1/8, state := RewardState.unsent },
         { user_address := "B", percentage := 7/8, state := RewardState.unsent }])).map
        fun r => r.amount_wei) =
      ((kept_rewards min_reward_amount (set_amounts 250000
        [{ user_address := "A", percentage := 1/8, state := RewardState.unsent },
         { user_address := "B", percentage := 7/8, state := RewardState.unsent }])).map
        fun r => ⌊((250000 : ℤ) : ℚ) * r.percentage⌋) ∧
    ((kept_rewards min_reward_amount (set_amounts 250000
        [{ user_address := "A", percentage := 1/8, state := RewardState.unsent },
         { user_address := "B", percentage := 7/8, state := RewardState.unsent }])).map
        fun r => r.amount_wei).sum ≤ 250000 :=
  kept_amounts_floor_and_sum_le 250000
    [{ user_address := "A", percentage := 1/8, state := RewardState.unsent },
     { user_address := "B", percentage := 7/8, state := RewardState.unsent }]
    (by decide) (by decide) (by decide)

/-- C6 counterexample: the unconditional claim fails on the code.  With
checkpoint 100 and staker A cached, B staking inside the scanned range
(100, 200], and A and B each holding 50 of the total stake of 100 at the
snapshot block, get_stakers replaces the cached set with the new batch
(service.py line 188), so the round — created with positive total stake —
persists only B's record and its percentages sum to 1/2, not 1. -/
theorem round_percentages_dropped_staker_counterexample :
    0 < chain_drop.totalAmountStaked 200 ∧
    new_round st_drop 2024 1 ∈
      (figure_out_rewards_for_month chain_drop true st_drop 2024 1).state.session.rounds ∧
    (((figure_out_rewards_for_month chain_drop true st_drop 2024 1).state.session.rewards.filter
        fun dr => decide (dr.row.distribution_round_id = some st_drop.nextRoundId)).map
      fun dr => dr.row.percentage).sum = 1 / 2 ∧
    ¬ ((((figure_out_rewards_for_month chain_drop true st_drop 2024 1).state.session.rewards.filter
        fun dr => decide (dr.row.distribution_round_id = some st_drop.nextRoundId)).map
      fun dr => dr.row.percentage).sum = 1) :=
  ⟨by decide, by decide, by decide, by decide⟩

/-- C6 (amended): for a round created with positive total stake at the
snapshot block, whenever the scanned staker set accounts for the whole
total stake — which the scanner's replace semantics does not guarantee —
the percentages persisted for that round sum to exactly 1 (hence to 1
within any epsilon). -/
theorem round_percentages_sum_to_one (chain : Chain) (st : RewarderState)
    (year month : ℤ)
    (hnr : get_distribution_round st.session (last_day_of_month_ym year month).1
      (last_day_of_month_ym year month).2 = none)
    (hfresh : ∀ r ∈ st.session.rewards,
      r.row.distribution_round_id ≠ some st.nextRoundId)
    (hne : (get_stakers chain (round_inserted st year month)
      (chain.closestBlockNumber year month)).value ≠ [])
    (hcons : ((get_stakers chain (round_inserted st year month)
        (chain.closestBlockNumber year month)).value.map fun a =>
        chain.staked a (get_stakers chain (round_inserted st year month)
          (chain.closestBlockNumber year month)).state.last_scanned_block_number).sum =
      chain.totalAmountStaked (get_stakers chain (round_inserted st year month)
        (chain.closestBlockNumber year month)).state.last_scanned_block_number)
    (hpos : 0 < chain.totalAmountStaked (get_stakers chain (round_inserted st year month)
      (chain.closestBlockNumber year month)).state.last_scanned_block_number) :
    (((figure_out_rewards_for_month chain true st year month).state.session.rewards.filter
        fun dr => decide (dr.row.distribution_round_id = some st.nextRoundId)).map
      fun dr => dr.row.percentage).sum = 1 := by
  rw [(figure_out_success_parts chain st year month hnr hne).1, List.filter_append]
  have hfilter_old : st.session.rewards.filter
      (fun dr => decide (dr.row.distribution_round_id = some st.nextRoundId)) = [] :=
    List.filter_eq_nil_iff.mpr fun dr hdr => by simpa using hfresh dr hdr
  rw [hfilter_old, List.nil_append]
  have hfilter_new : ((rows_of_rewards (kept_rewards min_reward_amount (set_amounts
        total_reward_to_distribute (get_rewards_at_block chain
          (get_stakers chain (round_inserted st year month)
            (chain.closestBlockNumber year month)).value
          (get_stakers chain (round_inserted st year month)
            (chain.closestBlockNumber year month)).state.last_scanned_block_number)))
      st.nextRoundId
      (get_stakers chain (round_inserted st year month)
        (chain.closestBlockNumber year month)).state.nextRewardId).map
      (fun row => ({ row := row, tx_hash_col := none } : DurableReward))).filter
      (fun dr => decide (dr.row.distribution_round_id = some st.nextRoundId)) =
      (rows_of_rewards (kept_rewards min_reward_amount (set_amounts
        total_reward_to_distribute (get_rewards_at_block chain
          (get_stakers chain (round_inserted st year month)
            (chain.closestBlockNumber year month)).value
          (get_stakers chain (round_inserted st year month)
            (chain.closestBlockNumber year month)).state.last_scanned_block_number)))
      st.nextRoundId
      (get_stakers chain (round_inserted st year month)
        (chain.closestBlockNumber year month)).state.nextRewardId).map
      (fun row => ({ row := row, tx_hash_col := none } : DurableReward)) :=
    List.filter_eq_self.mpr fun dr hdr => by
      obtain ⟨row, hrow, rfl⟩ := List.mem_map.mp hdr
      simpa using rows_of_rewards_round_id _ st.nextRoundId _ row hrow
  rw [hfilter_new, List.map_map]
  show ((rows_of_rewards (kept_rewards min_reward_amount (set_amounts
      total_reward_to_distribute (get_rewards_at_block chain
        (get_stakers chain (round_inserted st year month)
          (chain.closestBlockNumber year month)).value
        (get_stakers chain (round_inserted st year month)
          (chain.closestBlockNumber year month)).state.last_scanned_block_number)))
    st.nextRoundId
    (get_stakers chain (round_inserted st year month)
      (chain.closestBlockNumber year month)).state.nextRewardId).map
    fun row => row.percentage).sum = 1
  rw [rows_of_rewards_percentages]
  rw [kept_all_of_nonneg min_reward_amount _ (fun r hr =>
    set_amounts_nonneg _ _ total_reward_nonneg
      (get_rewards_at_block_pct_nonneg chain _ _) r hr)]
  rw [set_amounts_percentages]
  rw [get_rewards_at_block_eq_map chain _ _ hne, List.map_map]
  show ((get_stakers chain (round_inserted st year month)
      (chain.closestBlockNumber year month)).value.map fun a =>
      (chain.staked a (get_stakers chain (round_inserted st year month)
        (chain.closestBlockNumber year month)).state.last_scanned_block_number : ℚ) /
      (chain.totalAmountStaked (get_stakers chain (round_inserted st year month)
        (chain.closestBlockNumber year month)).state.last_scanned_block_number : ℚ)).sum = 1
  rw [sum_map_div, sum_map_natCast, hcons]
  exact div_self (Nat.cast_ne_zero.mpr hpos.ne')

/-- Witness for the C6 theorem at the end-to-end example ledger. -/
theorem round_percentages_sum_to_one_witness :
    (((figure_out_rewards_for_month chain_ab true st_empty 2024 1).state.session.rewards.filter
        fun dr => decide (dr.row.distribution_round_id = some st_empty.nextRoundId)).map
      fun dr => dr.row.percentage).sum = 1 :=
  round_percentages_sum_to_one chain_ab st_empty 2024 1
    (by decide) (by simp [st_empty, db_empty]) (by decide) (by decide) (by decide)

/-- C10: a staker with zero individual stake at the snapshot block (with
positive total stake) still gets a Reward with percentage 0, a persisted
RewardRecord with amount 0 (the minimum-reward threshold 0 filters nothing
out), and a later distribute_rewards run submits a transfer of amount 0 to
its address. -/
theorem zero_stake_zero_record_and_transfer (chain : Chain) (st : RewarderState)
    (year month : ℤ) (z : String) (env : DistEnv)
    (hnr : get_distribution_round st.session (last_day_of_month_ym year month).1
      (last_day_of_month_ym year month).2 = none)
    (hempty : st.session.rewards = [])
    (hz : z ∈ (get_stakers chain (round_inserted st year month)
      (chain.closestBlockNumber year month)).value)
    (hz0 : chain.staked z (get_stakers chain (round_inserted st year month)
      (chain.closestBlockNumber year month)).state.last_scanned_block_number = 0)
    (hsub : ∀ a m n, (env.submit a m n).isSome = true) :
    (∃ dr ∈ (figure_out_rewards_for_month chain true st year month).state.session.rewards,
      dr.row.user_address = z ∧ dr.row.percentage = 0 ∧ dr.row.amount_wei = 0 ∧
      dr.row.state = RewardState.unsent) ∧
    (∃ t ∈ (distribute_rewards env
        (figure_out_rewards_for_month chain true st year month).state.durable).transfers,
      t.1 = z ∧ t.2.1 = 0) := by
  have hne : (get_stakers chain (round_inserted st year month)
      (chain.closestBlockNumber year month)).value ≠ [] := List.ne_nil_of_mem hz
  have hparts := figure_out_success_parts chain st year month hnr hne
  have hr0 : ∃ r0 ∈ get_rewards_at_block chain
      (get_stakers chain (round_inserted st year month)
        (chain.closestBlockNumber year month)).value
      (get_stakers chain (round_inserted st year month)
        (chain.closestBlockNumber year month)).state.last_scanned_block_number,
      r0.user_address = z ∧ r0.percentage = 0 := by
    rw [get_rewards_at_block_eq_map chain _ _ hne]
    refine ⟨_, List.mem_map_of_mem _ hz, rfl, ?_⟩
    dsimp only
    rw [hz0]
    simp
  obtain ⟨r0, hr0mem, hr0addr, hr0pct⟩ := hr0
  have hr1 : ∃ r1 ∈ set_amounts total_reward_to_distribute
      (get_rewards_at_block chain
        (get_stakers chain (round_inserted st year month)
          (chain.closestBlockNumber year month)).value
        (get_stakers chain (round_inserted st year month)
          (chain.closestBlockNumber year month)).state.last_scanned_block_number),
      r1.user_address = z ∧ r1.percentage = 0 ∧ r1.amount_wei = 0 := by
    refine ⟨_, List.mem_map_of_mem _ hr0mem, hr0addr, hr0pct, ?_⟩
    dsimp only
    rw [hr0pct, mul_zero]
    decide
  obtain ⟨r1, hr1mem, h1a, h1p, h1w⟩ := hr1
  have hkeptEq := kept_all_of_nonneg min_reward_amount _
    (set_amounts_nonneg _ _ total_reward_nonneg
      (get_rewards_at_block_pct_nonneg chain
        (get_stakers chain (round_inserted st year month)
          (chain.closestBlockNumber year month)).value
        (get_stakers chain (round_inserted st year month)
          (chain.closestBlockNumber year month)).state.last_scanned_block_number))
  have hr1kept : r1 ∈ kept_rewards min_reward_amount
      (set_amounts total_reward_to_distribute
        (get_rewards_at_block chain
          (get_stakers chain (round_inserted st year month)
            (chain.closestBlockNumber year month)).value
          (get_stakers chain (round_inserted st year month)
            (chain.closestBlockNumber year month)).state.last_scanned_block_number)) := by
    rw [hkeptEq]
    exact hr1mem
  obtain ⟨row, hrowmem, hrowaddr, hrowpct, hroww⟩ :=
    rows_of_rewards_mem _ st.nextRoundId _ r1 hr1kept
  have hrowstate := rows_of_rewards_state _ st.nextRoundId _ row hrowmem
  have hdur : (figure_out_rewards_for_month chain true st year month).state.durable.rewards =
      (rows_of_rewards (kept_rewards min_reward_amount (set_amounts
          total_reward_to_distribute (get_rewards_at_block chain
            (get_stakers chain (round_inserted st year month)
              (chain.closestBlockNumber year month)).value
            (get_stakers chain (round_inserted st year month)
              (chain.closestBlockNumber year month)).state.last_scanned_block_number)))
        st.nextRoundId
        (get_stakers chain (round_inserted st year month)
          (chain.closestBlockNumber year month)).state.nextRewardId).map
        (fun row => { row := row, tx_hash_col := none }) := by
    rw [hparts.2, hempty, List.nil_append]
  constructor
  · refine ⟨{ row := row, tx_hash_col := none }, ?_, ?_⟩
    · rw [hparts.1]
      exact List.mem_append_right _ (List.mem_map_of_mem _ hrowmem)
    · exact ⟨hrowaddr.trans h1a, hrowpct.trans h1p, hroww.trans h1w, hrowstate⟩
  · have hallunsent : ∀ dr ∈ (rows_of_rewards (kept_rewards min_reward_amount
        (set_amounts total_reward_to_distribute (get_rewards_at_block chain
          (get_stakers chain (round_inserted st year month)
            (chain.closestBlockNumber year month)).value
          (get_stakers chain (round_inserted st year month)
            (chain.closestBlockNumber year month)).state.last_scanned_block_number)))
        st.nextRoundId
        (get_stakers chain (round_inserted st year month)
          (chain.closestBlockNumber year month)).state.nextRewardId).map
        (fun row => ({ row := row, tx_hash_col := none } : DurableReward)),
        dr.row.state = RewardState.unsent := by
      intro dr hdr
      obtain ⟨row2, hrow2, rfl⟩ := List.mem_map.mp hdr
      exact rows_of_rewards_state _ _ _ row2 hrow2
    have hnosend : (figure_out_rewards_for_month chain true st
        year month).state.durable.rewards.filter
        (fun r => decide (r.row.state = RewardState.sending)) = [] := by
      rw [hdur]
      refine List.filter_eq_nil_iff.mpr fun dr hdr => ?_
      simp [hallunsent dr hdr]
    have hunsentall : (figure_out_rewards_for_month chain true st
        year month).state.durable.rewards.filter
        (fun r => decide (r.row.state = RewardState.unsent)) =
        (figure_out_rewards_for_month chain true st year month).state.durable.rewards := by
      refine List.filter_eq_self.mpr fun dr hdr => ?_
      rw [hdur] at hdr
      simp [hallunsent dr hdr]
    rw [distribute_rewards_transfers_eq env _ hnosend, hunsentall]
    have hsl := (send_loop_transfers_all env hsub
      ((figure_out_rewards_for_month chain true st year month).state.durable.rewards)
      ((figure_out_rewards_for_month chain true st year month).state.durable)
      env.start_nonce).2
    have hzpair : (z, (0 : ℤ)) ∈ (send_loop env
        ((figure_out_rewards_for_month chain true st year month).state.durable.rewards)
        ((figure_out_rewards_for_month chain true st year month).state.durable)
        env.start_nonce).transfers.map (fun t => (t.1, t.2.1)) := by
      rw [hsl, hdur]
      refine List.mem_map.mpr ⟨{ row := row, tx_hash_col := none },
        List.mem_map_of_mem _ hrowmem, ?_⟩
      dsimp only
      rw [hrowaddr.trans h1a, hroww.trans h1w]
    obtain ⟨t, htmem, htp⟩ := List.mem_map.mp hzpair
    exact ⟨t, htmem, (Prod.ext_iff.mp htp).1, (Prod.ext_iff.mp htp).2⟩

/-- Witness for the C10 theorem: on a ledger where Z staked nothing while A
holds the whole stake, Z still receives a zero record and a zero-amount
transfer. -/
theorem zero_stake_zero_record_and_transfer_witness :
    (∃ dr ∈ (figure_out_rewards_for_month chain_z true st_empty 2024 1).state.session.rewards,
      dr.row.user_address = "Z" ∧ dr.row.percentage = 0 ∧ dr.row.amount_wei = 0 ∧
      dr.row.state = RewardState.unsent) ∧
    (∃ t ∈ (distribute_rewards env_ok
        (figure_out_rewards_for_month chain_z true st_empty 2024 1).state.durable).transfers,
      t.1 = "Z" ∧ t.2.1 = 0) :=
  zero_stake_zero_record_and_transfer chain_z st_empty 2024 1 "Z" env_ok
    (by decide) (by decide) (by decide) (by decide) (fun _ _ _ => rfl)

end PayrueStaking
